import Mathlib

set_option linter.unusedVariables false
set_option linter.unnecessarySimpa false
set_option linter.unnecessarySeqFocus false

/-!
Shallow embedding of the run/profile/debug supervisor of the codimension editor
(src/utils/runmanager.py): the `RemoteProcessWrapper` per-process state machine,
the `RunManager` registry, the console-widget pick policy and the three
supervisory timers.  Qt signal emission is single-threaded and synchronous
(direct connections), so a signal emission is modelled as a direct call of the
connected slot; socket signals (`readyRead`, `disconnected`) are delivered only
while the wrapper's slots are connected and the socket object is alive.
Python exceptions are modelled explicitly where the code catches (or fails to
catch) them.
-/

namespace Codimension

/-- Finish code reported when a process was killed (runmanager.py, `KILLED`). -/
def KILLED : Int := -1000000

/-- Finish code reported when the client connection was lost (`DISCONNECTED`). -/
def DISCONNECTED : Int := -2000000

/-- Prologue handshake timeout in seconds (`HANDSHAKE_TIMEOUT`). -/
def HANDSHAKE_TIMEOUT : Nat := 15

/-- Wrapper state constant `STATE_PROLOGUE`. -/
def STATE_PROLOGUE : Nat := 0

/-- Wrapper state constant `STATE_RUNNING`. -/
def STATE_RUNNING : Nat := 1

/-- Modelled from the spec: the `RUN` kind tag imported from `utils.runparams`,
which is not under src/; an opaque enum tag. -/
def RUN : Nat := 0

/-- Modelled from the spec: protocol method name `proc-id-info` from
`debugger.client.protocol_cdm_dbg`, which is not under src/ (spec section 3). -/
def METHOD_PROC_ID_INFO : String := "proc-id-info"

/-- Modelled from the spec: protocol method name `epilogue-exit-code`. -/
def METHOD_EPILOGUE_EXIT_CODE : String := "epilogue-exit-code"

/-- Modelled from the spec: protocol method name `stdout`. -/
def METHOD_STDOUT : String := "stdout"

/-- Modelled from the spec: protocol method name `stderr`. -/
def METHOD_STDERR : String := "stderr"

/-- Modelled from the spec: protocol method name `stdin`. -/
def METHOD_STDIN : String := "stdin"

/-- Params mapping of a control message; each field is present or absent,
mirroring the keys the wrapper reads (`exitCode`, `text`, `prompt`, `echo`). -/
structure Params where
  exitCode : Option Int := none
  text : Option String := none
  prompt : Option String := none
  echo : Option Int := none
deriving DecidableEq, Repr

/-- A decoded control message `(method, procuuid, params)`; `params` is `none`
when the JSON carried `null`. -/
structure Msg where
  method : String
  procuuid : String
  params : Option Params := none
deriving DecidableEq, Repr

/-- Outcome of `parseJSONMessage` on one received line.  Modelled from the
spec: the codec (not under src/) either decodes, or fails with `TypeError` /
`ValueError` on a line that is not well-formed or lacks the mandatory fields. -/
inductive LineResult where
  | decoded (m : Msg)
  | decodeError
deriving DecidableEq, Repr

/-- Events emitted by a wrapper's Qt signals (`sigFinished`,
`sigClientStdout`, `sigClientStderr`, `sigClientInput`). -/
inductive OutEvent where
  | finished (uuid : String) (code : Int)
  | stdoutEv (text : String)
  | stderrEv (text : String)
  | inputEv (prompt : String) (echo : Int)
deriving DecidableEq, Repr

/-- Messages the wrapper sends to the child (`sendJSONCommand` calls). -/
inductive Sent where
  | prologueContinue (uuid : String)
  | epilogueExit (uuid : String)
  | stdinInput (uuid : String) (input : String)
deriving DecidableEq, Repr

/-- Outcome of a Python dict access `params[key]` in the message handler:
`caught` when `params` is `None` (a `TypeError`, caught by the handler's
`except (TypeError, ValueError)` clause), `uncaught` when the key is missing
from the mapping (a `KeyError`, which that clause does not catch). -/
inductive KeyAccess (α : Type) where
  | caught
  | uncaught
  | ok (a : α)
deriving DecidableEq, Repr

/-- Evaluates `params[key]` with the exception semantics above. -/
def getKey {α : Type} (params : Option Params) (field : Params → Option α) :
    KeyAccess α :=
  match params with
  | none => .caught
  | some p =>
    match field p with
    | none => .uncaught
    | some v => .ok v

/-- What `Popen.poll()` does at a given moment: still running (`None`),
exited with a code, or the call itself raises. -/
inductive PollOutcome where
  | stillRunning
  | exitedWith (code : Int)
  | raisesError
deriving DecidableEq, Repr

/-- The OS process handle held in `self.__proc`. -/
structure ProcHandle where
  pollResult : PollOutcome
deriving DecidableEq, Repr

/-- State of one `RemoteProcessWrapper`: uuid, script path, redirection flag,
state (`None` / `STATE_PROLOGUE` / `STATE_RUNNING`), the client socket (by id,
`none` when absent), whether the socket slots are connected
(`__connectSocket` / `__disconnectSocket`), and the process handle. -/
structure RemoteProcessWrapper where
  procuuid : String
  path : String
  redirected : Bool
  state : Option Nat := none
  clientSocket : Option Nat := none
  slotsConnected : Bool := false
  proc : Option ProcHandle := none
deriving DecidableEq, Repr

/-- `__connectSocket`: connects the `readyRead` / `disconnected` slots when a
socket is present. -/
def connectSocket (w : RemoteProcessWrapper) : RemoteProcessWrapper :=
  if w.clientSocket.isSome then { w with slotsConnected := true } else w

/-- `__disconnectSocket`: disconnects the socket slots when a socket is
present (the inner `try` swallows errors). -/
def disconnectSocket (w : RemoteProcessWrapper) : RemoteProcessWrapper :=
  if w.clientSocket.isSome then { w with slotsConnected := false } else w

/-- `__closeSocket`: closes and drops the client socket if one is held. -/
def closeSocket (w : RemoteProcessWrapper) : RemoteProcessWrapper :=
  if w.clientSocket.isSome then { w with clientSocket := none } else w

/-- `wait`: reaps the OS process (a no-op on our state) and closes the
socket. -/
def wrapperWait (w : RemoteProcessWrapper) : RemoteProcessWrapper :=
  closeSocket w

/-- `__kill`: kills the process (with the `/proc`-scan fallback for a
grandchild, an OS side effect outside the model), then `wait`s and clears the
handle. -/
def wrapperKill (w : RemoteProcessWrapper) : RemoteProcessWrapper :=
  { wrapperWait w with proc := none }

/-- `stop`: disconnects the socket slots, kills the process and emits
`sigFinished(procuuid, KILLED)` — on every call, unconditionally. -/
def RemoteProcessWrapper.stop (w : RemoteProcessWrapper) :
    RemoteProcessWrapper × List OutEvent :=
  (wrapperKill (disconnectSocket w), [.finished w.procuuid KILLED])

/-- `__disconnected` slot: kills the process and emits
`sigFinished(procuuid, DISCONNECTED)`. -/
def disconnectedSlot (w : RemoteProcessWrapper) :
    RemoteProcessWrapper × List OutEvent :=
  (wrapperKill w, [.finished w.procuuid DISCONNECTED])

/-- Result of one pass of `__parseClientLine`: updated wrapper, emitted
events, sent messages, and the uncaught exception if the pass crashed. -/
structure LineOut where
  w : RemoteProcessWrapper
  evs : List OutEvent := []
  sent : List Sent := []
  err : Option String := none
deriving DecidableEq, Repr

/-- Body of the `__parseClientLine` loop for one received line: the
`try` block dispatches on the method; `except (TypeError, ValueError)` logs
and continues; a `KeyError` from a missing params key is not caught. -/
def handleLine (w : RemoteProcessWrapper) (l : LineResult) : LineOut :=
  match l with
  | .decodeError => { w := w }
  | .decoded m =>
    if m.method = METHOD_EPILOGUE_EXIT_CODE then
      let w1 := disconnectSocket w
      match getKey m.params (fun p => p.exitCode) with
      | .ok c =>
        { w := w1, evs := [.finished w.procuuid c],
          sent := [.epilogueExit w.procuuid] }
      | .caught => { w := w1, sent := [.epilogueExit w.procuuid] }
      | .uncaught =>
        { w := w1, sent := [.epilogueExit w.procuuid],
          err := some "KeyError: exitCode" }
    else if m.method = METHOD_STDOUT then
      match getKey m.params (fun p => p.text) with
      | .ok t => { w := w, evs := [.stdoutEv t] }
      | .caught => { w := w }
      | .uncaught => { w := w, err := some "KeyError: text" }
    else if m.method = METHOD_STDERR then
      match getKey m.params (fun p => p.text) with
      | .ok t => { w := w, evs := [.stderrEv t] }
      | .caught => { w := w }
      | .uncaught => { w := w, err := some "KeyError: text" }
    else if m.method = METHOD_STDIN then
      match getKey m.params (fun p => p.prompt) with
      | .ok pr =>
        match getKey m.params (fun p => p.echo) with
        | .ok e => { w := w, evs := [.inputEv pr e] }
        | .caught => { w := w }
        | .uncaught => { w := w, err := some "KeyError: echo" }
      | .caught => { w := w }
      | .uncaught => { w := w, err := some "KeyError: prompt" }
    else { w := w }

/-- `__parseClientLine`: drains the buffered complete lines while the client
socket is held; an uncaught exception aborts the loop. -/
def parseClientLine (w : RemoteProcessWrapper) :
    List LineResult → LineOut
  | [] => { w := w }
  | l :: rest =>
    if w.clientSocket.isSome then
      let o := handleLine w l
      match o.err with
      | some e => { w := o.w, evs := o.evs, sent := o.sent, err := some e }
      | none =>
        let o2 := parseClientLine o.w rest
        { w := o2.w, evs := o.evs ++ o2.evs, sent := o.sent ++ o2.sent,
          err := o2.err }
    else { w := w }

/-- `setSocket`: stores the socket, sets the state to `STATE_RUNNING`,
connects the slots, parses any already-buffered lines and sends the
prologue-continue message.  There is no precondition check of any kind. -/
def setSocket (w : RemoteProcessWrapper) (s : Nat)
    (buffered : List LineResult) : LineOut :=
  let w1 := { w with clientSocket := some s, state := some STATE_RUNNING }
  let o := parseClientLine (connectSocket w1) buffered
  match o.err with
  | some e => o
  | none => { o with sent := o.sent ++ [.prologueContinue w.procuuid] }

/-- `waitDetached`: polls the process; `True` when it has exited (and was
reaped), `True` when `self.__proc` is `None` (the attribute access raises,
the bare `except` returns `True`) or when `poll` itself raises; `False` only
when the process is demonstrably still running. -/
def waitDetached (w : RemoteProcessWrapper) : Bool :=
  match w.proc with
  | none => true
  | some h =>
    match h.pollResult with
    | .stillRunning => false
    | .exitedWith _ => true
    | .raisesError => true

/-- External stimuli a wrapper can receive: a `stop()` call, the socket's
`disconnected` signal, or a `readyRead` with some buffered complete lines. -/
inductive WOp where
  | stopOp
  | disconnectOp
  | linesOp (ls : List LineResult)
deriving DecidableEq, Repr

/-- One stimulus applied to a wrapper.  Socket signals are delivered only
while the slots are connected and the socket object is alive (a closed socket
emits no further signals). -/
def wstep (w : RemoteProcessWrapper) : WOp → RemoteProcessWrapper × List OutEvent
  | .stopOp => w.stop
  | .disconnectOp =>
    if w.slotsConnected && w.clientSocket.isSome then disconnectedSlot w
    else (w, [])
  | .linesOp ls =>
    if w.slotsConnected && w.clientSocket.isSome then
      let o := parseClientLine w ls
      (o.w, o.evs)
    else (w, [])

/-- A sequence of stimuli applied to a wrapper, accumulating emitted events. -/
def runOps (w : RemoteProcessWrapper) : List WOp → RemoteProcessWrapper × List OutEvent
  | [] => (w, [])
  | op :: rest =>
    let (w1, evs) := wstep w op
    let (w2, evs2) := runOps w1 rest
    (w2, evs ++ evs2)

/-- One registry entry (`RemoteProcess`): the wrapper, whether a console
widget was assigned (redirected launches get one in `run`), and the kind. -/
structure RemoteProcess where
  procWrapper : RemoteProcessWrapper
  widget : Bool := false
  kind : Nat := RUN
deriving DecidableEq, Repr

/-- Correlation id of a registry entry. -/
def uuidOf (item : RemoteProcess) : String :=
  item.procWrapper.procuuid

/-- Observable manager-side effects: wrapper `sigFinished` emissions, stdio
events forwarded to the widget, console messages (`appendIDEMessage`),
logged errors and status-bar messages. -/
inductive MOut where
  | finEvent (uuid : String) (code : Int)
  | clientOut (e : OutEvent)
  | consoleMsg (uuid : String) (text : String)
  | loggedError (text : String)
  | statusBar (text : String)
deriving DecidableEq, Repr

/-- `RunManager` state: the registry (`self.__processes`), the prologue watch
list (`self.__prologueProcesses`, pairs of uuid and launch timestamp), and
whether each single-shot supervisory timer is currently armed. -/
structure RunManager where
  processes : List RemoteProcess := []
  prologueProcesses : List (String × Nat) := []
  waitTimerActive : Bool := false
  prologueTimerActive : Bool := false
deriving DecidableEq, Repr

/-- `__getProcessIndex`: index of the first registry entry with the given
uuid. -/
def getProcessIndex : List RemoteProcess → String → Option Nat
  | [], _ => none
  | item :: rest, uuid =>
    if item.procWrapper.procuuid = uuid then some 0
    else (getProcessIndex rest uuid).map (· + 1)

/-- First registry entry with the given uuid (the entry
`self.__processes[self.__getProcessIndex(procuuid)]` denotes). -/
def findProcess : List RemoteProcess → String → Option RemoteProcess
  | [], _ => none
  | item :: rest, uuid =>
    if item.procWrapper.procuuid = uuid then some item
    else findProcess rest uuid

/-- User-facing message chosen in `__onProcessFinished`. -/
def finishMessage (retCode : Int) : String :=
  if retCode = KILLED then "Script killed"
  else if retCode = DISCONNECTED then "Connection lost to the script process"
  else "Script finished with exit code " ++ toString retCode

/-- Console output produced by `__onProcessFinished` for the removed entry:
only redirected entries with a widget get a message. -/
def finishOuts (item : RemoteProcess) (retCode : Int) : List MOut :=
  if item.procWrapper.redirected && item.widget then
    [.consoleMsg (uuidOf item) (finishMessage retCode)]
  else []

/-- `__onProcessFinished` slot: looks the uuid up; when found, notifies the
console widget and removes the entry; a second event for the same uuid is a
no-op because the entry is already gone. -/
def onProcessFinished (st : RunManager) (uuid : String) (retCode : Int) :
    RunManager × List MOut :=
  match getProcessIndex st.processes uuid with
  | none => (st, [])
  | some i =>
    match st.processes[i]? with
    | none => (st, [])
    | some item =>
      ({ st with processes := st.processes.eraseIdx i }, finishOuts item retCode)

/-- Synchronous delivery of a wrapper's emitted signals to their connected
slots: `sigFinished` goes to `__onProcessFinished`, stdio signals go to the
entry's widget. -/
def deliverEvents (st : RunManager) : List OutEvent → RunManager × List MOut
  | [] => (st, [])
  | e :: rest =>
    match e with
    | .finished u c =>
      let (st1, o1) := onProcessFinished st u c
      let (st2, o2) := deliverEvents st1 rest
      (st2, MOut.finEvent u c :: (o1 ++ o2))
    | _ =>
      let (st2, o2) := deliverEvents st rest
      (st2, MOut.clientOut e :: o2)

/-- `item.procWrapper.stop()` on the entry at index `i`, with the emitted
`sigFinished` handled synchronously by `__onProcessFinished`. -/
def stopEntry (st : RunManager) (i : Nat) : RunManager × List MOut :=
  match st.processes[i]? with
  | none => (st, [])
  | some item =>
    let (w1, evs) := item.procWrapper.stop
    let st1 :=
      { st with processes := st.processes.set i { item with procWrapper := w1 } }
    deliverEvents st1 evs

/-- `kill(procuuid)`: targeted stop; a no-op when the uuid is unknown or the
entry is not redirected. -/
def RunManager.kill (st : RunManager) (procuuid : String) :
    RunManager × List MOut :=
  match getProcessIndex st.processes procuuid with
  | none => (st, [])
  | some i =>
    match st.processes[i]? with
    | none => (st, [])
    | some item =>
      if item.procWrapper.redirected then stopEntry st i else (st, [])

/-- `__getDetachedCount`: number of redirected entries still registered. -/
def getDetachedCount (st : RunManager) : Nat :=
  (st.processes.filter (fun it => it.procWrapper.redirected)).length

/-- Correlation ids of the currently registered redirected entries. -/
def redirectedUuids (st : RunManager) : List String :=
  (st.processes.filter (fun it => it.procWrapper.redirected)).map uuidOf

/-- The downward index loop of `killAll`: stops every redirected entry,
reading `self.__processes[index]` from the current (mutating) list; each
`stop()` synchronously removes its entry via `__onProcessFinished`. -/
def killAllLoop (st : RunManager) : Nat → RunManager × List MOut
  | 0 => (st, [])
  | i + 1 =>
    let step :=
      match st.processes[i]? with
      | none => (st, ([] : List MOut))
      | some item =>
        if item.procWrapper.redirected then stopEntry st i else (st, [])
    let (st2, o2) := killAllLoop step.1 i
    (st2, step.2 ++ o2)

/-- Effects one stopped redirected entry contributes to `killAll`'s output. -/
def stopOuts (item : RemoteProcess) : List MOut :=
  MOut.finEvent (uuidOf item) KILLED :: finishOuts item KILLED

/-- Concatenated stop effects of the redirected entries of a list. -/
def stopOutsList : List RemoteProcess → List MOut
  | [] => []
  | e :: rest =>
    (if e.procWrapper.redirected then stopOuts e else []) ++ stopOutsList rest

/-- Output of `killAll`'s stop loop over a registry prefix (the loop walks
the list from its end). -/
def killAllOuts (l : List RemoteProcess) : List MOut :=
  stopOutsList l.reverse

/-- `killAll`: stops every redirected entry, then busy-polls until the count
of registered redirected entries is zero.  In the single-threaded model no
event can arrive during the drain, so the count can never decrease there:
the result is `none` (the drain spins forever) unless the count is already
zero when the drain starts. -/
def RunManager.killAll (st : RunManager) :
    Option (RunManager × List MOut) :=
  let (st1, outs) := killAllLoop st st.processes.length
  if getDetachedCount st1 = 0 then some (st1, outs) else none

/-- What the bounded handshake read of `__waitForHandshake` observed on an
inbound connection: no line within 1000 ms, or a line with its decode
outcome. -/
inductive HandshakeInput where
  | timeout
  | line (r : LineResult)
deriving DecidableEq, Repr

/-- Result of `__waitForHandshake`: the manager state, whether the client
socket was closed (`__safeSocketClose`), observable outputs, messages sent by
`setSocket`, and the uncaught exception if the initial parse pass crashed. -/
structure HandshakeResult where
  st : RunManager
  socketClosed : Bool := false
  outs : List MOut := []
  sent : List Sent := []
  err : Option String := none
deriving DecidableEq, Repr

/-- `__waitForHandshake`: bounded read of the proc-id-info line.  On timeout
nothing at all happens (the socket is not closed); a decode failure or a
wrong method closes the socket and reports; a decoded proc-id-info with an
unknown uuid just returns (no close, registry untouched); a known uuid gets
`__onProcessStarted` and `setSocket`. -/
def waitForHandshake (st : RunManager) (inp : HandshakeInput) (s : Nat)
    (buffered : List LineResult) : HandshakeResult :=
  match inp with
  | .timeout => { st := st }
  | .line .decodeError =>
    { st := st, socketClosed := true,
      outs := [.statusBar "Unsolicited connection to the RunManager. Ignoring..."] }
  | .line (.decoded m) =>
    if m.method ≠ METHOD_PROC_ID_INFO then
      { st := st, socketClosed := true,
        outs := [.loggedError "Unexpected message at the handshake stage"] }
    else
      match getProcessIndex st.processes m.procuuid with
      | none => { st := st }
      | some i =>
        match st.processes[i]? with
        | none => { st := st }
        | some item =>
          let startedOuts : List MOut :=
            if item.widget then [.consoleMsg m.procuuid "Started"] else []
          let o := setSocket item.procWrapper s buffered
          let st1 :=
            { st with
              processes := st.processes.set i { item with procWrapper := o.w } }
          let (st2, douts) := deliverEvents st1 o.evs
          { st := st2, socketClosed := false, outs := startedOuts ++ douts,
            sent := o.sent, err := o.err }

/-- Console reuse modes of the `ioconsolereuse` setting (`NO_REUSE`,
reuse-without-clear, `CLEAR_AND_REUSE`). -/
inductive ReuseMode where
  | noReuse
  | reuse
  | clearAndReuse
deriving DecidableEq, Repr

/-- An IO console widget: owning uuid, kind, and its accumulated content. -/
structure Console where
  procuuid : String
  kind : Nat
  content : List String := []
deriving DecidableEq, Repr

/-- A fresh `IOConsoleWidget(procuuid, kind)`. -/
def newConsole (procuuid : String) (kind : Nat) : Console :=
  { procuuid := procuuid, kind := kind }

/-- `widget.clear()`. -/
def clearConsole (c : Console) : Console :=
  { c with content := [] }

/-- What `__pickWidget` returned: a freshly created widget (added to the main
window) or an existing idle widget that was reassigned. -/
inductive PickResult where
  | fresh (c : Console)
  | reused (c : Console)
deriving DecidableEq, Repr

/-- The scan loop of `__pickWidget`: walks the existing consoles in order and
takes the first one of the right kind whose owning entry is no longer
registered, clearing it in `CLEAR_AND_REUSE` mode. -/
def scanConsoles (processes : List RemoteProcess) (kind : Nat)
    (mode : ReuseMode) : List Console → Option Console
  | [] => none
  | c :: rest =>
    if c.kind = kind then
      match getProcessIndex processes c.procuuid with
      | none => some (if mode = .clearAndReuse then clearConsole c else c)
      | some _ => scanConsoles processes kind mode rest
    else scanConsoles processes kind mode rest

/-- `__pickWidget`: `NO_REUSE` always creates a new widget; the other modes
reuse the first idle widget of the right kind, or fall back to a new one. -/
def pickWidget (mode : ReuseMode) (consoles : List Console)
    (processes : List RemoteProcess) (procuuid : String) (kind : Nat) :
    PickResult :=
  if mode = .noReuse then .fresh (newConsole procuuid kind)
  else
    match scanConsoles processes kind mode consoles with
    | some c => .reused c
    | none => .fresh (newConsole procuuid kind)

/-- Modelled from the spec: the reuse policy's own words — "the first
existing widget of the same kind whose owning process entry no longer
exists" — as a declarative first-match, for comparison with `pickWidget`. -/
def firstIdleConsole (processes : List RemoteProcess) (kind : Nat)
    (consoles : List Console) : Option Console :=
  consoles.find?
    (fun c => c.kind == kind && (getProcessIndex processes c.procuuid).isNone)

/-- Outcome of `Popen` in `RemoteProcessWrapper.start`. -/
inductive SpawnOutcome where
  | ok (h : ProcHandle)
  | raises (msg : String)
deriving DecidableEq, Repr

/-- The launch path of `run(path, needDialog)` after the parameters are
settled (`needDialog` dialog handling skipped): creates the wrapper (uuid is
minted by `uuid.uuid1()`, passed in here), registers the prologue watch entry
and arms the prologue timer and picks a widget for redirected launches
*before* spawning, appends the entry, then tries `start`; on spawn failure it
reports and deletes the just-appended entry — and nothing else. -/
def runScript (st : RunManager) (path procuuid : String) (redirected : Bool)
    (now : Nat) (mode : ReuseMode) (consoles : List Console)
    (spawn : SpawnOutcome) : RunManager × List MOut :=
  let w0 : RemoteProcessWrapper :=
    { procuuid := procuuid, path := path, redirected := redirected }
  let w1 := if redirected then { w0 with state := some STATE_PROLOGUE } else w0
  let st1 :=
    if redirected then
      { st with
        prologueProcesses := st.prologueProcesses ++ [(procuuid, now)],
        prologueTimerActive := true }
    else st
  let preOuts : List MOut :=
    if redirected then [.consoleMsg procuuid ("Starting " ++ path ++ "...")]
    else []
  let pick := pickWidget mode consoles st1.processes procuuid RUN
  let entry : RemoteProcess :=
    { procWrapper := w1, widget := redirected, kind := RUN }
  let st2 := { st1 with processes := st1.processes ++ [entry] }
  match spawn with
  | .ok h =>
    let started : RemoteProcess := { entry with procWrapper := { w1 with proc := some h } }
    let st3 := { st2 with processes := st1.processes ++ [started] }
    if redirected then (st3, preOuts)
    else ({ st3 with waitTimerActive := true }, preOuts)
  | .raises msg =>
    let failOuts : List MOut :=
      if redirected then [.consoleMsg procuuid ("Failed to start: " ++ msg)]
      else [.loggedError msg]
    ({ st2 with processes := st2.processes.dropLast }, preOuts ++ failOuts)

/-- The downward index loop of `__onWaitTimer`: polls every non-redirected
entry; removes the reaped (or unpollable) ones and requests a new timer for
the rest. -/
def waitLoop (st : RunManager) : Nat → Bool → RunManager × Bool
  | 0, need => (st, need)
  | i + 1, need =>
    match st.processes[i]? with
    | none => waitLoop st i need
    | some item =>
      if item.procWrapper.redirected then waitLoop st i need
      else if waitDetached item.procWrapper then
        waitLoop { st with processes := st.processes.eraseIdx i } i need
      else waitLoop st i true

/-- `__onWaitTimer`: runs the poll loop, then rearms the single-shot timer
only if a live non-redirected entry remains. -/
def onWaitTimer (st : RunManager) : RunManager :=
  let (st1, need) := waitLoop st st.processes.length false
  { st1 with waitTimerActive := need }

/-- The IDE message `__onPrologueTimer` appends on a prologue timeout. -/
def timeoutMessage : String :=
  "Timeout: the process did not start; killing the process."

/-- Result of the prologue timer loop: state, outputs, and whether a new
timer is needed. -/
structure TimerOut where
  st : RunManager
  outs : List MOut := []
  need : Bool := false
deriving DecidableEq, Repr

/-- The downward index loop of `__onPrologueTimer`: drops watch entries whose
process is gone or has left the prologue state; force-stops (with a console
notification) a process still in prologue after more than `HANDSHAKE_TIMEOUT`
seconds; otherwise requests a new timer.  The watch entry of a timed-out
process is not removed here (the next tick finds its process gone and drops
it). -/
def prologueLoop (st : RunManager) (now : Nat) : Nat → Bool → TimerOut
  | 0, need => { st := st, need := need }
  | i + 1, need =>
    match st.prologueProcesses[i]? with
    | none => prologueLoop st now i need
    | some (u, t0) =>
      match getProcessIndex st.processes u with
      | none =>
        prologueLoop
          { st with prologueProcesses := st.prologueProcesses.eraseIdx i }
          now i need
      | some pi =>
        match st.processes[pi]? with
        | none => prologueLoop st now i need
        | some item =>
          if item.procWrapper.state ≠ some STATE_PROLOGUE then
            prologueLoop
              { st with prologueProcesses := st.prologueProcesses.eraseIdx i }
              now i need
          else if HANDSHAKE_TIMEOUT < now - t0 then
            let outs1 : List MOut :=
              if item.widget then [.consoleMsg u timeoutMessage] else []
            let (st1, outs2) := stopEntry st pi
            let r := prologueLoop st1 now i need
            { r with outs := outs1 ++ outs2 ++ r.outs }
          else prologueLoop st now i true

/-- `__onPrologueTimer`: runs the watch loop, then rearms the single-shot
timer only if some watch entry is still waiting. -/
def onPrologueTimer (st : RunManager) (now : Nat) : RunManager × List MOut :=
  let r := prologueLoop st now st.prologueProcesses.length false
  ({ r.st with prologueTimerActive := r.need }, r.outs)

/-! Concrete sample states used to evaluate the development on explicit
inputs. -/

/-- A freshly launched redirected wrapper, as `run` creates it. -/
def w0c : RemoteProcessWrapper :=
  { procuuid := "u", path := "script.py", redirected := true,
    state := some STATE_PROLOGUE }

/-- A redirected wrapper whose child has already exited. -/
def wExited : RemoteProcessWrapper :=
  { procuuid := "u", path := "script.py", redirected := true,
    state := some STATE_RUNNING,
    proc := some { pollResult := .exitedWith 0 } }

/-- The wrapper of `w0c` after its connection was attached. -/
def wAttached : RemoteProcessWrapper :=
  (setSocket w0c 5 []).w

/-- A well-formed `stdout` control message whose params mapping lacks the
`text` key. -/
def badLine : LineResult :=
  .decoded { method := "stdout", procuuid := "u", params := some {} }

/-- A well-formed epilogue-exit-code message reporting a negative exit
code. -/
def negExitLine : LineResult :=
  .decoded { method := METHOD_EPILOGUE_EXIT_CODE, procuuid := "u",
             params := some { exitCode := some (-5) } }

/-- The empty manager. -/
def st0 : RunManager := {}

/-- A handshake message with a correlation id no tracked entry carries. -/
def procMsgUnknown : Msg :=
  { method := METHOD_PROC_ID_INFO, procuuid := "ghost" }

/-- A handshake message with an unexpected method. -/
def bogusMsg : Msg :=
  { method := "bogus", procuuid := "ghost" }

/-- A running redirected entry with a connected socket and a widget. -/
def entryR : RemoteProcess :=
  { procWrapper :=
      { procuuid := "r1", path := "a.py", redirected := true,
        state := some STATE_RUNNING, clientSocket := some 3,
        slotsConnected := true },
    widget := true }

/-- A live non-redirected entry. -/
def entryN : RemoteProcess :=
  { procWrapper :=
      { procuuid := "n1", path := "b.py", redirected := false,
        proc := some { pollResult := .stillRunning } } }

/-- A manager tracking one redirected and one detached process. -/
def stC : RunManager := { processes := [entryR, entryN] }

/-- A redirected entry still in the prologue phase. -/
def entryP : RemoteProcess :=
  { procWrapper :=
      { procuuid := "u", path := "a.py", redirected := true,
        state := some STATE_PROLOGUE },
    widget := true }

/-- A manager with one launch awaiting its handshake since time 0. -/
def stP : RunManager :=
  { processes := [entryP], prologueProcesses := [("u", 0)],
    prologueTimerActive := true }

/-! Helper lemmas about list indexing at a known middle position and about
the registry lookup functions. -/

theorem cdxGetMiddle {α : Type} (l1 : List α) (x : α) (l2 : List α) :
    (l1 ++ x :: l2)[l1.length]? = some x := by
  induction l1 with
  | nil => simp
  | cons a t ih => simpa using ih

theorem cdxSetMiddle {α : Type} (l1 : List α) (x y : α) (l2 : List α) :
    (l1 ++ x :: l2).set l1.length y = l1 ++ y :: l2 := by
  induction l1 with
  | nil => rfl
  | cons a t ih => simpa using ih

theorem cdxEraseMiddle {α : Type} (l1 : List α) (x : α) (l2 : List α) :
    (l1 ++ x :: l2).eraseIdx l1.length = l1 ++ l2 := by
  induction l1 with
  | nil => rfl
  | cons a t ih => simpa using ih

theorem cdxNodupMiddle {α β : Type} (f : α → β) (l1 : List α) (x : α)
    (l2 : List α) (h : ((l1 ++ x :: l2).map f).Nodup) :
    f x ∉ (l1 ++ l2).map f ∧ ((l1 ++ l2).map f).Nodup := by
  have hp : List.Perm ((l1 ++ x :: l2).map f) (f x :: (l1 ++ l2).map f) := by
    simpa using List.perm_middle.map f
  have h2 : (f x :: (l1 ++ l2).map f).Nodup := hp.nodup_iff.mp h
  exact ⟨(List.nodup_cons.mp h2).1, (List.nodup_cons.mp h2).2⟩

theorem gpiNoneIff (ps : List RemoteProcess) (u : String) :
    getProcessIndex ps u = none ↔ u ∉ ps.map uuidOf := by
  induction ps with
  | nil => simp [getProcessIndex]
  | cons a t ih =>
    by_cases h : a.procWrapper.procuuid = u
    · simp [getProcessIndex, h, uuidOf]
    · have h' : ¬u = a.procWrapper.procuuid := fun he => h he.symm
      simp [getProcessIndex, h, uuidOf, h'] at ih ⊢
      exact ih

theorem gpiMiddle (l1 : List RemoteProcess) (x : RemoteProcess)
    (l2 : List RemoteProcess) (u : String) (hu : x.procWrapper.procuuid = u)
    (hfresh : u ∉ l1.map uuidOf) :
    getProcessIndex (l1 ++ x :: l2) u = some l1.length := by
  induction l1 with
  | nil => simp [getProcessIndex, hu]
  | cons a t ih =>
    have ha : a.procWrapper.procuuid ≠ u := by
      intro he
      exact hfresh (by simp [uuidOf, he])
    have ht : u ∉ t.map uuidOf := fun hm => hfresh (by simp [hm])
    simp [getProcessIndex, ha, ih ht]

theorem gpiSpec (ps : List RemoteProcess) (u : String) (i : Nat)
    (h : getProcessIndex ps u = some i) :
    ∃ l1 x l2, ps = l1 ++ x :: l2 ∧ l1.length = i ∧
      x.procWrapper.procuuid = u ∧ u ∉ l1.map uuidOf := by
  induction ps generalizing i with
  | nil => simp [getProcessIndex] at h
  | cons a t ih =>
    by_cases ha : a.procWrapper.procuuid = u
    · simp [getProcessIndex, ha] at h
      exact ⟨[], a, t, by simp, by simp [h], ha, by simp⟩
    · simp [getProcessIndex, ha] at h
      obtain ⟨j, hj, hji⟩ := h
      obtain ⟨l1, x, l2, hps, hlen, hx, hfresh⟩ := ih j hj
      refine ⟨a :: l1, x, l2, by simp [hps], by simp [hlen, hji], hx, ?_⟩
      simp [uuidOf] at hfresh ⊢
      exact ⟨fun he => ha he.symm, hfresh⟩

theorem fpSpec (ps : List RemoteProcess) (u : String) (item : RemoteProcess)
    (h : findProcess ps u = some item) :
    ∃ l1 l2, ps = l1 ++ item :: l2 ∧ item.procWrapper.procuuid = u ∧
      u ∉ l1.map uuidOf := by
  induction ps with
  | nil => simp [findProcess] at h
  | cons a t ih =>
    by_cases ha : a.procWrapper.procuuid = u
    · simp [findProcess, ha] at h
      exact ⟨[], t, by simp [h], by rw [← h]; exact ha, by simp⟩
    · simp [findProcess, ha] at h
      obtain ⟨l1, l2, hps, hx, hfresh⟩ := ih h
      refine ⟨a :: l1, l2, by simp [hps], hx, ?_⟩
      simp [uuidOf] at hfresh ⊢
      exact ⟨fun he => ha he.symm, hfresh⟩

theorem fpMiddle (l1 : List RemoteProcess) (x : RemoteProcess)
    (l2 : List RemoteProcess) (u : String) (hu : x.procWrapper.procuuid = u)
    (hfresh : u ∉ l1.map uuidOf) :
    findProcess (l1 ++ x :: l2) u = some x := by
  induction l1 with
  | nil => simp [findProcess, hu]
  | cons a t ih =>
    have ha : a.procWrapper.procuuid ≠ u := by
      intro he
      exact hfresh (by simp [uuidOf, he])
    have ht : u ∉ t.map uuidOf := fun hm => hfresh (by simp [hm])
    simp [findProcess, ha, ih ht]

theorem fpEraseMiddle (l1 : List RemoteProcess) (y : RemoteProcess)
    (l2 : List RemoteProcess) (u : String) (item : RemoteProcess)
    (hy : y.procWrapper.procuuid ≠ u)
    (h : findProcess (l1 ++ y :: l2) u = some item) :
    findProcess (l1 ++ l2) u = some item := by
  induction l1 with
  | nil => simpa [findProcess, hy] using h
  | cons a t ih =>
    by_cases ha : a.procWrapper.procuuid = u
    · simpa [findProcess, ha] using h
    · simp [findProcess, ha] at h ⊢
      exact ih h

/-! Preservation facts about `stop` and the entry it is applied to. -/

theorem stopState (w : RemoteProcessWrapper) :
    (w.stop).1.procuuid = w.procuuid ∧ (w.stop).1.redirected = w.redirected ∧
      (w.stop).1.clientSocket = none ∧ (w.stop).1.proc = none := by
  by_cases h : w.clientSocket.isSome <;>
    simp [RemoteProcessWrapper.stop, wrapperKill, wrapperWait, closeSocket,
      disconnectSocket, h] <;>
    simp_all [Option.isSome_iff_exists, Option.eq_none_iff_forall_not_mem]

theorem stopEvents (w : RemoteProcessWrapper) :
    (w.stop).2 = [.finished w.procuuid KILLED] := rfl

theorem stoppedNoEvents (w : RemoteProcessWrapper) (ls : List LineResult) :
    (wstep (w.stop).1 .disconnectOp).2 = [] ∧
      (wstep (w.stop).1 (.linesOp ls)).2 = [] := by
  have h : (w.stop).1.clientSocket = none := (stopState w).2.2.1
  constructor <;> simp [wstep, h]

theorem finishOutsStop (x : RemoteProcess) (c : Int) :
    finishOuts { x with procWrapper := (x.procWrapper.stop).1 } c =
      finishOuts x c := by
  simp [finishOuts, uuidOf, (stopState x.procWrapper).1,
    (stopState x.procWrapper).2.1]

/-! Specifications of finish handling, targeted stop, and the `killAll`
loop. -/

theorem opfSpec (st : RunManager) (l1 : List RemoteProcess)
    (x : RemoteProcess) (l2 : List RemoteProcess) (u : String) (c : Int)
    (hps : st.processes = l1 ++ x :: l2)
    (hu : x.procWrapper.procuuid = u)
    (hfresh : u ∉ l1.map uuidOf) :
    onProcessFinished st u c = ({ st with processes := l1 ++ l2 }, finishOuts x c) := by
  have h1 := gpiMiddle l1 x l2 u hu hfresh
  simp only [onProcessFinished, hps, h1, cdxGetMiddle, cdxEraseMiddle]

theorem stopEntrySpec (st : RunManager) (l1 : List RemoteProcess)
    (x : RemoteProcess) (l2 : List RemoteProcess)
    (hps : st.processes = l1 ++ x :: l2)
    (hfresh : x.procWrapper.procuuid ∉ (l1 ++ l2).map uuidOf) :
    stopEntry st l1.length =
      ({ st with processes := l1 ++ l2 },
        MOut.finEvent (uuidOf x) KILLED :: finishOuts x KILLED) := by
  have hget : st.processes[l1.length]? = some x := by
    rw [hps]; exact cdxGetMiddle _ _ _
  have hfresh1 : x.procWrapper.procuuid ∉ l1.map uuidOf := by
    intro hm; exact hfresh (by simp [hm])
  have hset : st.processes.set l1.length
      { x with procWrapper := (x.procWrapper.stop).1 } =
      l1 ++ { x with procWrapper := (x.procWrapper.stop).1 } :: l2 := by
    rw [hps]; exact cdxSetMiddle _ _ _ _
  have hopf := opfSpec
    { st with processes := l1 ++ { x with procWrapper := (x.procWrapper.stop).1 } :: l2 }
    l1 { x with procWrapper := (x.procWrapper.stop).1 } l2
    x.procWrapper.procuuid KILLED (by simp) (stopState x.procWrapper).1 hfresh1
  have hfo := finishOutsStop x KILLED
  simp only [stopEntry, hget]
  simp only [RemoteProcessWrapper.stop] at hset hopf hfo ⊢
  simp only [deliverEvents, hset, hopf, hfo, uuidOf]
  simp

theorem killAllLoopSpec (pre : List RemoteProcess) :
    ∀ (st : RunManager) (suf : List RemoteProcess),
      st.processes = pre ++ suf →
      ((pre ++ suf).map uuidOf).Nodup →
      killAllLoop st pre.length =
        ({ st with processes :=
            pre.filter (fun it => !it.procWrapper.redirected) ++ suf },
          killAllOuts pre) := by
  induction pre using List.reverseRecOn with
  | nil =>
    intro st suf hps _
    simp [killAllLoop, killAllOuts, stopOutsList, ← hps]
  | append_singleton pre' e ih =>
    intro st suf hps hnod
    have hre : (pre' ++ [e]) ++ suf = pre' ++ e :: suf := by simp
    rw [hre] at hps hnod
    have hget : st.processes[pre'.length]? = some e := by
      rw [hps]; exact cdxGetMiddle _ _ _
    have hnodmid := cdxNodupMiddle uuidOf pre' e suf hnod
    have hlen : (pre' ++ [e]).length = pre'.length + 1 := by simp
    rw [hlen]
    by_cases hr : e.procWrapper.redirected
    · have hstop := stopEntrySpec st pre' e suf hps hnodmid.1
      have hrec := ih { st with processes := pre' ++ suf } suf (by simp) hnodmid.2
      simp only [killAllLoop, hget, hr, if_true, hstop, hrec, Prod.mk.injEq]
      refine ⟨?_, ?_⟩
      · simp [List.filter_append, hr]
      · simp [killAllOuts, stopOutsList, hr, stopOuts]
    · have hr' : e.procWrapper.redirected = false := by
        rwa [Bool.not_eq_true] at hr
      have hrec := ih st (e :: suf) hps (by simpa using hnod)
      simp only [killAllLoop, hget, hr', hrec, Bool.false_eq_true, if_false,
        Prod.mk.injEq]
      refine ⟨?_, ?_⟩
      · simp [List.filter_append, hr']
      · simp [killAllOuts, stopOutsList, hr']

theorem cdxFilterNotFilter {α : Type} (p : α → Bool) (l : List α) :
    ((l.filter (fun a => !(p a))).filter p) = [] := by
  induction l with
  | nil => rfl
  | cons a t ih => by_cases h : p a <;> simp [h, ih]

theorem stopOutsListMem (l : List RemoteProcess) (e : RemoteProcess)
    (he : e ∈ l) (hr : e.procWrapper.redirected = true) :
    MOut.finEvent (uuidOf e) KILLED ∈ stopOutsList l := by
  induction l with
  | nil => cases he
  | cons a t ih =>
    rcases List.mem_cons.mp he with rfl | hm
    · simp [stopOutsList, hr, stopOuts]
    · by_cases ha : a.procWrapper.redirected <;> simp [stopOutsList, ha, ih hm]

theorem cdxMapFilterSubset {p : RemoteProcess → Bool} {t : List RemoteProcess}
    {u : String} (h : u ∈ (t.filter p).map uuidOf) : u ∈ t.map uuidOf := by
  obtain ⟨y, hy, hyy⟩ := List.mem_map.mp h
  exact List.mem_map.mpr ⟨y, (List.mem_filter.mp hy).1, hyy⟩

theorem cdxNodupFilterNot (l : List RemoteProcess) (u : String)
    (hn : (l.map uuidOf).Nodup)
    (hu : u ∈ (l.filter (fun it => it.procWrapper.redirected)).map uuidOf) :
    u ∉ (l.filter (fun it => !it.procWrapper.redirected)).map uuidOf := by
  induction l with
  | nil => simp at hu
  | cons a t ih =>
    have hn' : uuidOf a ∉ t.map uuidOf ∧ (t.map uuidOf).Nodup := by
      simpa [List.nodup_cons] using hn
    by_cases h : a.procWrapper.redirected
    · simp only [List.filter_cons, h, if_true] at hu
      simp only [List.filter_cons, h, Bool.not_true, if_false]
      rcases (by simpa using hu : u = uuidOf a ∨
          u ∈ (t.filter (fun it => it.procWrapper.redirected)).map uuidOf) with rfl | hu'
      · intro hmem
        exact hn'.1 (cdxMapFilterSubset hmem)
      · exact ih hn'.2 hu'
    · simp only [List.filter_cons, h, if_false] at hu
      simp only [List.filter_cons, h, Bool.not_false, if_true]
      intro hmem
      rcases (by simpa using hmem : u = uuidOf a ∨
          u ∈ (t.filter (fun it => !it.procWrapper.redirected)).map uuidOf) with rfl | hm'
      · exact hn'.1 (cdxMapFilterSubset hu)
      · exact ih hn'.2 hu hm'

/-! Preservation of a uuid's absence from the registry through finish
handling, targeted stops and the prologue timer loop. -/

theorem cdxNotMemEraseIdx {α β : Type} (f : α → β) (l : List α) (i : Nat)
    (z : β) (hz : z ∉ l.map f) : z ∉ (l.eraseIdx i).map f := by
  intro hm
  obtain ⟨y, hy, hyy⟩ := List.mem_map.mp hm
  exact hz (List.mem_map.mpr ⟨y, (List.eraseIdx_sublist l i).subset hy, hyy⟩)

theorem cdxNotMemSet {α β : Type} (f : α → β) (l : List α) (i : Nat) (a : α)
    (z : β) (hz : z ∉ l.map f)
    (ha : ∀ y, l[i]? = some y → f a = f y) : z ∉ (l.set i a).map f := by
  induction l generalizing i with
  | nil => simpa using hz
  | cons b t ih =>
    cases i with
    | zero =>
      have hfa : f a = f b := ha b (by simp)
      simpa [List.set, hfa] using hz
    | succ j =>
      have hz1 : ¬z = f b := by
        intro he; exact hz (by simp [he])
      have hz2 : z ∉ t.map f := by
        intro hm; exact hz (by simp [hm])
      have ht := ih j hz2 (fun y hy => ha y (by simpa using hy))
      simp only [List.set_cons_succ, List.map_cons, List.mem_cons]
      push_neg
      exact ⟨hz1, ht⟩

theorem opfNotMem (st : RunManager) (u : String) (c : Int) (z : String)
    (hz : z ∉ st.processes.map uuidOf) :
    z ∉ (onProcessFinished st u c).1.processes.map uuidOf := by
  unfold onProcessFinished
  cases h1 : getProcessIndex st.processes u with
  | none => simpa [h1] using hz
  | some i =>
    cases h2 : st.processes[i]? with
    | none => simpa [h1, h2] using hz
    | some item =>
      simpa [h1, h2] using cdxNotMemEraseIdx uuidOf st.processes i z hz

theorem stopEntryNotMem (st : RunManager) (i : Nat) (z : String)
    (hz : z ∉ st.processes.map uuidOf) :
    z ∉ (stopEntry st i).1.processes.map uuidOf := by
  unfold stopEntry
  cases h1 : st.processes[i]? with
  | none => simpa [h1] using hz
  | some item =>
    have hset : z ∉ ((st.processes.set i
        { item with procWrapper := (item.procWrapper.stop).1 }).map uuidOf) := by
      refine cdxNotMemSet uuidOf st.processes i _ z hz (fun y hy => ?_)
      rw [h1] at hy
      cases hy
      simp [uuidOf, (stopState item.procWrapper).1]
    have hopf := opfNotMem
      { st with
        processes := (st.processes.set i
          { item with procWrapper := (item.procWrapper.stop).1 }) }
      item.procWrapper.procuuid KILLED z hset
    simp only [h1]
    simp only [RemoteProcessWrapper.stop] at hopf ⊢
    simpa [deliverEvents] using hopf

theorem prologueLoopNotMem (now : Nat) (z : String) :
    ∀ (fuel : Nat) (st : RunManager) (need : Bool),
      z ∉ st.processes.map uuidOf →
      z ∉ (prologueLoop st now fuel need).st.processes.map uuidOf := by
  intro fuel
  induction fuel with
  | zero =>
    intro st need hz
    simpa [prologueLoop] using hz
  | succ i ih =>
    intro st need hz
    unfold prologueLoop
    cases h1 : st.prologueProcesses[i]? with
    | none => simpa [h1] using ih st need hz
    | some p =>
      obtain ⟨u, t0⟩ := p
      cases h2 : getProcessIndex st.processes u with
      | none =>
        simpa [h1, h2] using
          ih { st with prologueProcesses := st.prologueProcesses.eraseIdx i }
            need hz
      | some pi =>
        cases h3 : st.processes[pi]? with
        | none => simpa [h1, h2, h3] using ih st need hz
        | some item =>
          by_cases h4 : item.procWrapper.state ≠ some STATE_PROLOGUE
          · simpa [h1, h2, h3, h4] using
              ih { st with prologueProcesses := st.prologueProcesses.eraseIdx i }
                need hz
          · by_cases h5 : HANDSHAKE_TIMEOUT < now - t0
            · have hrec := ih (stopEntry st pi).1 need (stopEntryNotMem st pi z hz)
              simpa [h1, h2, h3, h4, h5] using hrec
            · simpa [h1, h2, h3, h4, h5] using ih st true hz

/-- Core of the prologue-timeout analysis: when the watch list holds an entry
`(uuid, t0)` whose process is still registered in the prologue state with a
widget, and more than `HANDSHAKE_TIMEOUT` seconds have passed, the timer loop
force-stops it: the process leaves the registry and the timeout console
message and the `finished(uuid, KILLED)` event are produced. -/
theorem prologueLoopHits (now t0 : Nat) (uuid : String) (item : RemoteProcess)
    (hstate : item.procWrapper.state = some STATE_PROLOGUE)
    (hwidget : item.widget = true)
    (htime : HANDSHAKE_TIMEOUT < now - t0) :
    ∀ (wsuf : List (String × Nat)), uuid ∉ wsuf.map Prod.fst →
    ∀ (st : RunManager) (wpre rest : List (String × Nat)) (need : Bool)
      (fuel : Nat), fuel = wpre.length + 1 + wsuf.length →
      st.prologueProcesses = wpre ++ (uuid, t0) :: (wsuf ++ rest) →
      (st.processes.map uuidOf).Nodup →
      findProcess st.processes uuid = some item →
      uuid ∉ (prologueLoop st now fuel need).st.processes.map uuidOf ∧
      MOut.consoleMsg uuid timeoutMessage ∈ (prologueLoop st now fuel need).outs ∧
      MOut.finEvent uuid KILLED ∈ (prologueLoop st now fuel need).outs := by
  intro wsuf
  induction wsuf using List.reverseRecOn with
  | nil =>
    intro _ st wpre rest need fuel hfuel hpp hnod hfp
    have hfuel' : fuel = wpre.length + 1 := by simpa using hfuel
    subst hfuel'
    obtain ⟨l1, l2, hdec, hid, hfr⟩ := fpSpec st.processes uuid item hfp
    have h1 : st.prologueProcesses[wpre.length]? = some (uuid, t0) := by
      rw [hpp]; simpa using cdxGetMiddle wpre (uuid, t0) rest
    have h2 : getProcessIndex st.processes uuid = some l1.length := by
      rw [hdec]; exact gpiMiddle l1 item l2 uuid hid hfr
    have h3 : st.processes[l1.length]? = some item := by
      rw [hdec]; exact cdxGetMiddle _ _ _
    have hnodmid := cdxNodupMiddle uuidOf l1 item l2 (hdec ▸ hnod)
    have hstop := stopEntrySpec st l1 item l2 hdec hnodmid.1
    have habs : uuid ∉ ((l1 ++ l2).map uuidOf) := by
      rw [← hid]; exact hnodmid.1
    have hrec := prologueLoopNotMem now uuid wpre.length
      { st with processes := l1 ++ l2 } need habs
    refine ⟨?_, ?_, ?_⟩ <;>
      simp [prologueLoop, h1, h2, h3, hstate, STATE_PROLOGUE, htime, hstop,
        hwidget, uuidOf, hid, hrec]
  | append_singleton wsuf' p ih =>
    obtain ⟨u', t'⟩ := p
    intro hW st wpre rest need fuel hfuel hpp hnod hfp
    have hWs : uuid ∉ wsuf'.map Prod.fst := by
      intro hm; exact hW (by simp [hm])
    have hne : uuid ≠ u' := by
      intro he; exact hW (by simp [he])
    have hfuel' : fuel = (wpre.length + 1 + wsuf'.length) + 1 := by
      simp at hfuel; omega
    subst hfuel'
    have hX : (wpre ++ (uuid, t0) :: wsuf').length =
        wpre.length + 1 + wsuf'.length := by
      simp; omega
    have hpp' : st.prologueProcesses =
        (wpre ++ (uuid, t0) :: wsuf') ++ (u', t') :: rest := by
      simp [hpp]
    have h1 : st.prologueProcesses[wpre.length + 1 + wsuf'.length]? =
        some (u', t') := by
      rw [hpp', ← hX]; exact cdxGetMiddle _ _ _
    cases h2 : getProcessIndex st.processes u' with
    | none =>
      have hppE : st.prologueProcesses.eraseIdx
          (wpre.length + 1 + wsuf'.length) =
          wpre ++ (uuid, t0) :: (wsuf' ++ rest) := by
        rw [hpp', ← hX, cdxEraseMiddle]; simp
      have hres := ih hWs
        { st with
          prologueProcesses :=
            st.prologueProcesses.eraseIdx (wpre.length + 1 + wsuf'.length) }
        wpre rest need (wpre.length + 1 + wsuf'.length) rfl
        (by simpa using hppE) hnod hfp
      refine ⟨?_, ?_, ?_⟩
      · simpa [prologueLoop, h1, h2] using hres.1
      · simpa [prologueLoop, h1, h2] using hres.2.1
      · simpa [prologueLoop, h1, h2] using hres.2.2
    | some pi =>
      obtain ⟨p1, y, p2, hdec', hlen', hyid, hfr'⟩ :=
        gpiSpec st.processes u' pi h2
      have h3 : st.processes[pi]? = some y := by
        rw [hdec', ← hlen']; exact cdxGetMiddle _ _ _
      by_cases h4 : y.procWrapper.state = some STATE_PROLOGUE
      · by_cases h5 : HANDSHAKE_TIMEOUT < now - t'
        · -- timed out: the loop stops the other entry u', then continues
          have hnodmid' := cdxNodupMiddle uuidOf p1 y p2 (hdec' ▸ hnod)
          have hstop := stopEntrySpec st p1 y p2 hdec' hnodmid'.1
          rw [hlen'] at hstop
          have hfp' : findProcess (p1 ++ p2) uuid = some item := by
            refine fpEraseMiddle p1 y p2 uuid item ?_ ?_
            · rw [hyid]; exact fun he => hne he.symm
            · rw [← hdec']; exact hfp
          have hres := ih hWs { st with processes := p1 ++ p2 }
            wpre ((u', t') :: rest) need (wpre.length + 1 + wsuf'.length) rfl
            (by simp [hpp]) hnodmid'.2 hfp'
          refine ⟨?_, ?_, ?_⟩
          · simpa [prologueLoop, h1, h2, h3, h4, h5, hstop] using hres.1
          · simp [prologueLoop, h1, h2, h3, h4, h5, hstop]
            right; right
            simpa using hres.2.1
          · simp [prologueLoop, h1, h2, h3, h4, h5, hstop]
            right; right
            simpa using hres.2.2
        · -- not yet timed out: the loop just records that a new timer is
          -- needed and moves on
          have hres := ih hWs st wpre ((u', t') :: rest) true
            (wpre.length + 1 + wsuf'.length) rfl (by simp [hpp]) hnod hfp
          refine ⟨?_, ?_, ?_⟩
          · simpa [prologueLoop, h1, h2, h3, h4, h5] using hres.1
          · simpa [prologueLoop, h1, h2, h3, h4, h5] using hres.2.1
          · simpa [prologueLoop, h1, h2, h3, h4, h5] using hres.2.2
      · -- the other entry left the prologue state: its watch entry is dropped
        have hppE : st.prologueProcesses.eraseIdx
            (wpre.length + 1 + wsuf'.length) =
            wpre ++ (uuid, t0) :: (wsuf' ++ rest) := by
          rw [hpp', ← hX, cdxEraseMiddle]; simp
        have hres := ih hWs
          { st with
            prologueProcesses :=
              st.prologueProcesses.eraseIdx (wpre.length + 1 + wsuf'.length) }
          wpre rest need (wpre.length + 1 + wsuf'.length) rfl
          (by simpa using hppE) hnod hfp
        refine ⟨?_, ?_, ?_⟩
        · simpa [prologueLoop, h1, h2, h3, h4] using hres.1
        · simpa [prologueLoop, h1, h2, h3, h4] using hres.2.1
        · simpa [prologueLoop, h1, h2, h3, h4] using hres.2.2

/-- The detached-poll loop removes exactly the non-redirected entries whose
`waitDetached()` reports true, and requests a new timer exactly when a live
non-redirected entry remains. -/
theorem waitLoopSpec (pre : List RemoteProcess) :
    ∀ (st : RunManager) (suf : List RemoteProcess) (need : Bool),
      st.processes = pre ++ suf →
      waitLoop st pre.length need =
        ({ st with processes :=
            pre.filter (fun it => it.procWrapper.redirected ||
              !waitDetached it.procWrapper) ++ suf },
          need || pre.any (fun it => !it.procWrapper.redirected &&
            !waitDetached it.procWrapper)) := by
  induction pre using List.reverseRecOn with
  | nil =>
    intro st suf need hps
    simp [waitLoop, ← hps]
  | append_singleton pre' e ih =>
    intro st suf need hps
    have hre : (pre' ++ [e]) ++ suf = pre' ++ e :: suf := by simp
    rw [hre] at hps
    have hget : st.processes[pre'.length]? = some e := by
      rw [hps]; exact cdxGetMiddle _ _ _
    have hlen : (pre' ++ [e]).length = pre'.length + 1 := by simp
    rw [hlen]
    by_cases hr : e.procWrapper.redirected
    · have hrec := ih st (e :: suf) need hps
      simp only [waitLoop, hget, hr, if_true, hrec, Prod.mk.injEq]
      refine ⟨?_, ?_⟩
      · simp [List.filter_append, hr]
      · simp [List.any_append, hr]
    · have hr' : e.procWrapper.redirected = false := by
        rwa [Bool.not_eq_true] at hr
      by_cases hd : waitDetached e.procWrapper
      · have hers : st.processes.eraseIdx pre'.length = pre' ++ suf := by
          rw [hps]; exact cdxEraseMiddle _ _ _
        have hrec := ih { st with processes := pre' ++ suf } suf need (by simp)
        simp only [waitLoop, hget, hr', hd, hers, Bool.false_eq_true, if_false,
          if_true, hrec, Prod.mk.injEq]
        refine ⟨?_, ?_⟩
        · simp [List.filter_append, hr', hd]
        · simp [List.any_append, hr', hd]
      · have hd' : waitDetached e.procWrapper = false := by
          rwa [Bool.not_eq_true] at hd
        have hrec := ih st (e :: suf) true hps
        simp only [waitLoop, hget, hr', hd', Bool.false_eq_true, if_false,
          hrec, Prod.mk.injEq]
        refine ⟨?_, ?_⟩
        · simp [List.filter_append, hr', hd']
        · cases need <;> simp [List.any_append, hr', hd']

/-- The console scan of `__pickWidget` computes exactly the spec's
"first idle widget of the same kind", cleared in `CLEAR_AND_REUSE` mode. -/
theorem scanConsolesSpec (processes : List RemoteProcess) (kind : Nat)
    (mode : ReuseMode) (consoles : List Console) :
    scanConsoles processes kind mode consoles =
      (firstIdleConsole processes kind consoles).map
        (fun c => if mode = .clearAndReuse then clearConsole c else c) := by
  induction consoles with
  | nil => rfl
  | cons c rest ih =>
    by_cases hk : c.kind = kind
    · cases hg : getProcessIndex processes c.procuuid with
      | none => simp [scanConsoles, firstIdleConsole, List.find?, hk, hg]
      | some i =>
        have hb : (c.kind == kind &&
            (getProcessIndex processes c.procuuid).isNone) = false := by
          simp [hg]
        simpa [scanConsoles, firstIdleConsole, List.find?, hk, hg, hb] using ih
    · have hb : (c.kind == kind &&
          (getProcessIndex processes c.procuuid).isNone) = false := by
        simp [hk]
      simpa [scanConsoles, firstIdleConsole, List.find?, hk, hb] using ih

/-! Which lines can make the wrapper emit a finished event. -/

theorem handleLineFinished (w : RemoteProcessWrapper) (l : LineResult)
    (u : String) (c : Int)
    (h : OutEvent.finished u c ∈ (handleLine w l).evs) :
    ∃ m p, l = .decoded m ∧ m.method = METHOD_EPILOGUE_EXIT_CODE ∧
      m.params = some p ∧ p.exitCode = some c := by
  cases l with
  | decodeError => simp [handleLine] at h
  | decoded m =>
    by_cases h1 : m.method = METHOD_EPILOGUE_EXIT_CODE
    · cases hp : m.params with
      | none => simp [handleLine, h1, getKey, hp] at h
      | some p =>
        cases hc : p.exitCode with
        | none => simp [handleLine, h1, getKey, hp, hc] at h
        | some c0 =>
          simp [handleLine, h1, getKey, hp, hc] at h
          exact ⟨m, p, rfl, h1, by rw [hp], by rw [hc, h.2]⟩
    · by_cases h2 : m.method = METHOD_STDOUT
      · cases hg : getKey m.params (fun p => p.text) with
        | caught =>
          simp [handleLine, h2, METHOD_EPILOGUE_EXIT_CODE, METHOD_STDOUT, hg] at h
        | uncaught =>
          simp [handleLine, h2, METHOD_EPILOGUE_EXIT_CODE, METHOD_STDOUT, hg] at h
        | ok t =>
          simp [handleLine, h2, METHOD_EPILOGUE_EXIT_CODE, METHOD_STDOUT, hg] at h
      · by_cases h3 : m.method = METHOD_STDERR
        · cases hg : getKey m.params (fun p => p.text) with
          | caught =>
            simp [handleLine, h3, METHOD_EPILOGUE_EXIT_CODE, METHOD_STDOUT,
              METHOD_STDERR, hg] at h
          | uncaught =>
            simp [handleLine, h3, METHOD_EPILOGUE_EXIT_CODE, METHOD_STDOUT,
              METHOD_STDERR, hg] at h
          | ok t =>
            simp [handleLine, h3, METHOD_EPILOGUE_EXIT_CODE, METHOD_STDOUT,
              METHOD_STDERR, hg] at h
        · by_cases h4 : m.method = METHOD_STDIN
          · cases hg : getKey m.params (fun p => p.prompt) with
            | caught =>
              simp [handleLine, h4, METHOD_EPILOGUE_EXIT_CODE, METHOD_STDOUT,
                METHOD_STDERR, METHOD_STDIN, hg] at h
            | uncaught =>
              simp [handleLine, h4, METHOD_EPILOGUE_EXIT_CODE, METHOD_STDOUT,
                METHOD_STDERR, METHOD_STDIN, hg] at h
            | ok pr =>
              cases hg2 : getKey m.params (fun p => p.echo) with
              | caught =>
                simp [handleLine, h4, METHOD_EPILOGUE_EXIT_CODE, METHOD_STDOUT,
                  METHOD_STDERR, METHOD_STDIN, hg, hg2] at h
              | uncaught =>
                simp [handleLine, h4, METHOD_EPILOGUE_EXIT_CODE, METHOD_STDOUT,
                  METHOD_STDERR, METHOD_STDIN, hg, hg2] at h
              | ok e =>
                simp [handleLine, h4, METHOD_EPILOGUE_EXIT_CODE, METHOD_STDOUT,
                  METHOD_STDERR, METHOD_STDIN, hg, hg2] at h
          · simp [handleLine, h1, h2, h3, h4] at h

theorem parseFinished (w : RemoteProcessWrapper) (ls : List LineResult)
    (u : String) (c : Int)
    (h : OutEvent.finished u c ∈ (parseClientLine w ls).evs) :
    ∃ m p, LineResult.decoded m ∈ ls ∧ m.method = METHOD_EPILOGUE_EXIT_CODE ∧
      m.params = some p ∧ p.exitCode = some c := by
  induction ls generalizing w with
  | nil => simp [parseClientLine] at h
  | cons l rest ih =>
    by_cases hs : w.clientSocket.isSome
    · simp only [parseClientLine, hs, if_true] at h
      cases he : (handleLine w l).err with
      | some e =>
        simp only [he] at h
        obtain ⟨m, p, hl, hmeth, hp, hc⟩ := handleLineFinished w l u c h
        exact ⟨m, p, by simp [hl], hmeth, hp, hc⟩
      | none =>
        simp only [he, List.mem_append] at h
        rcases h with h | h
        · obtain ⟨m, p, hl, hmeth, hp, hc⟩ := handleLineFinished w l u c h
          exact ⟨m, p, by simp [hl], hmeth, hp, hc⟩
        · obtain ⟨m, p, hl, hmeth, hp, hc⟩ := ih _ h
          exact ⟨m, p, by simp [hl], hmeth, hp, hc⟩
    · have hs' : w.clientSocket.isSome = false := by
        rwa [Bool.not_eq_true] at hs
      simp [parseClientLine, hs'] at h

/-! The claims. -/

/-- Claim C1, amended: over any sequence of stimuli, every `sigFinished`
event a wrapper emits carries `KILLED`, `DISCONNECTED`, or the `exitCode`
field of a delivered epilogue-exit-code message — a line batch arriving while
the socket slots are still connected and the socket alive, holding a decoded
message with that method and that `exitCode` params value; and one `stop()`
call emits exactly one finished event.  Two parts of the original claim fail
(see the counterexample): each terminating operation emits one event of its
own, so repeated operations emit repeated events for the same correlation id;
and the wrapper forwards the client's `exitCode` unvalidated, so the emitted
code need not be `>= 0`. -/
theorem c1_finished_event_codes (w : RemoteProcessWrapper) (ops : List WOp) :
    (∀ u c, OutEvent.finished u c ∈ (runOps w ops).2 →
      c = KILLED ∨ c = DISCONNECTED ∨
        ∃ pre post ls m p, ops = pre ++ WOp.linesOp ls :: post ∧
          (runOps w pre).1.slotsConnected = true ∧
          (runOps w pre).1.clientSocket.isSome = true ∧
          LineResult.decoded m ∈ ls ∧
          m.method = METHOD_EPILOGUE_EXIT_CODE ∧
          m.params = some p ∧ p.exitCode = some c) ∧
    (runOps w [WOp.stopOp]).2 = [OutEvent.finished w.procuuid KILLED] := by
  constructor
  · induction ops generalizing w with
    | nil => intro u c h; simp [runOps] at h
    | cons op rest ih =>
      intro u c h
      rcases List.mem_append.mp (by simpa [runOps] using h) with h | h
      · cases op with
        | stopOp =>
          simp [wstep, RemoteProcessWrapper.stop] at h
          exact Or.inl h.2
        | disconnectOp =>
          by_cases hgate : w.slotsConnected && w.clientSocket.isSome
          · simp [wstep, hgate, disconnectedSlot] at h
            exact Or.inr (Or.inl h.2)
          · have hg' : (w.slotsConnected && w.clientSocket.isSome) = false := by
              rwa [Bool.not_eq_true] at hgate
            simp [wstep, hg'] at h
        | linesOp ls =>
          by_cases hgate : w.slotsConnected && w.clientSocket.isSome
          · simp [wstep, hgate] at h
            obtain ⟨m, p, hm, hmeth, hp, hc⟩ := parseFinished w ls u c h
            obtain ⟨hs1, hs2⟩ : w.slotsConnected = true ∧
                w.clientSocket.isSome = true := by simpa using hgate
            exact Or.inr (Or.inr
              ⟨[], rest, ls, m, p, rfl, hs1, hs2, hm, hmeth, hp, hc⟩)
          · have hg' : (w.slotsConnected && w.clientSocket.isSome) = false := by
              rwa [Bool.not_eq_true] at hgate
            simp [wstep, hg'] at h
      · rcases ih (wstep w op).1 u c h with hk | hk |
          ⟨pre, post, ls, m, p, hsplit, hslots, hsock, hm, hmeth, hp, hc⟩
        · exact Or.inl hk
        · exact Or.inr (Or.inl hk)
        · refine Or.inr (Or.inr
            ⟨op :: pre, post, ls, m, p, ?_, ?_, ?_, hm, hmeth, hp, hc⟩)
          · simp [hsplit]
          · simpa [runOps] using hslots
          · simpa [runOps] using hsock
  · simp [runOps, wstep, RemoteProcessWrapper.stop]

/-- Witness for C1: a concrete launch stopped once — the single event's code
is in the allowed set and the stop emitted exactly one event. -/
theorem c1_witness :
    (KILLED = KILLED ∨ KILLED = DISCONNECTED ∨
      ∃ pre post ls m p, [WOp.stopOp] = pre ++ WOp.linesOp ls :: post ∧
        (runOps w0c pre).1.slotsConnected = true ∧
        (runOps w0c pre).1.clientSocket.isSome = true ∧
        LineResult.decoded m ∈ ls ∧
        m.method = METHOD_EPILOGUE_EXIT_CODE ∧
        m.params = some p ∧ p.exitCode = some KILLED) ∧
    (runOps w0c [WOp.stopOp]).2 = [OutEvent.finished w0c.procuuid KILLED] :=
  ⟨(c1_finished_event_codes w0c [WOp.stopOp]).1 "u" KILLED (by decide),
   (c1_finished_event_codes w0c [WOp.stopOp]).2⟩

/-- Counterexample to C1 as stated: first, two `stop()` calls on one wrapper
emit two finished events for the same correlation id, refuting "at most and
exactly one finished event is ever emitted per correlation id"; second, the
wrapper emits a client-reported exit code without validating it, so a
delivered epilogue-exit-code line carrying `-5` yields a finished event whose
code is neither `KILLED`, nor `DISCONNECTED`, nor a real exit code `>= 0`. -/
theorem c1_counterexample :
    ((runOps w0c [WOp.stopOp, WOp.stopOp]).2 =
        [OutEvent.finished "u" KILLED, OutEvent.finished "u" KILLED] ∧
      ¬((runOps w0c [WOp.stopOp, WOp.stopOp]).2.length ≤ 1)) ∧
    ((runOps wAttached [WOp.linesOp [negExitLine]]).2 =
        [OutEvent.finished "u" (-5)] ∧
      ¬((-5 : Int) = KILLED ∨ (-5 : Int) = DISCONNECTED ∨
        (0 : Int) ≤ -5)) := by decide

/-- Claim C2, amended: `stop()` emits `finished(correlationId, KILLED)` once
per call — so `n` calls emit exactly `n` such events (not one in total), even
if the process had already exited. -/
theorem c2_stop_emits_once_per_call (w : RemoteProcessWrapper) (n : Nat) :
    (runOps w (List.replicate n WOp.stopOp)).2 =
      List.replicate n (OutEvent.finished w.procuuid KILLED) := by
  induction n generalizing w with
  | zero => rfl
  | succ k ih =>
    have hu : (wrapperKill (disconnectSocket w)).procuuid = w.procuuid :=
      (stopState w).1
    simp [List.replicate_succ, runOps, ih, hu, wstep,
      RemoteProcessWrapper.stop]

/-- Counterexample to C2 as stated: on a wrapper whose child already exited,
two `stop()` calls emit the KILLED event twice, not "exactly once in
total". -/
theorem c2_counterexample :
    (runOps wExited [WOp.stopOp, WOp.stopOp]).2 =
      [OutEvent.finished "u" KILLED, OutEvent.finished "u" KILLED] ∧
    ¬((runOps wExited [WOp.stopOp, WOp.stopOp]).2.length = 1) := by decide

/-- Claim C3, amended: `setSocket` performs no precondition check at all:
every call — whatever the current state, even on an already-attached
wrapper — stores the socket, transitions the state to Running and sends the
prologue-continue message; no `InvalidStateError` (or any rejection) exists
in the code. -/
theorem c3_setSocket_never_rejects (w : RemoteProcessWrapper) (s : Nat) :
    (setSocket w s []).w.state = some STATE_RUNNING ∧
    (setSocket w s []).w.clientSocket = some s ∧
    (setSocket w s []).w.procuuid = w.procuuid ∧
    (setSocket w s []).err = none ∧
    (setSocket w s []).evs = [] ∧
    (setSocket w s []).sent = [Sent.prologueContinue w.procuuid] := by
  simp [setSocket, parseClientLine, connectSocket]

/-- Counterexample to C3 as stated: calling `setSocket` a second time on an
already-attached running wrapper is not rejected with an `InvalidStateError`
— it completes as a full successful attach. -/
theorem c3_counterexample :
    (setSocket wAttached 6 []).err = none ∧
    (setSocket wAttached 6 []).w.state = some STATE_RUNNING ∧
    (setSocket wAttached 6 []).w.clientSocket = some 6 ∧
    (setSocket wAttached 6 []).sent = [Sent.prologueContinue "u"] := by decide

/-- Claim C4, amended: every failed handshake — timeout, undecodable line,
wrong method, or unknown correlation id — leaves the registry (the tracked
entries, their states, the watch list and the timers) completely unchanged;
but the connection is explicitly closed only in the undecodable-line and
wrong-method cases: on timeout and on an unknown correlation id the socket is
left open, merely abandoned. -/
theorem c4_handshake_failures_leave_registry (st : RunManager) (s : Nat)
    (buffered : List LineResult) (m : Msg) :
    ((waitForHandshake st .timeout s buffered).st = st ∧
      (waitForHandshake st .timeout s buffered).socketClosed = false) ∧
    ((waitForHandshake st (.line .decodeError) s buffered).st = st ∧
      (waitForHandshake st (.line .decodeError) s buffered).socketClosed = true) ∧
    (m.method ≠ METHOD_PROC_ID_INFO →
      (waitForHandshake st (.line (.decoded m)) s buffered).st = st ∧
      (waitForHandshake st (.line (.decoded m)) s buffered).socketClosed = true) ∧
    (m.method = METHOD_PROC_ID_INFO →
      getProcessIndex st.processes m.procuuid = none →
      (waitForHandshake st (.line (.decoded m)) s buffered).st = st ∧
      (waitForHandshake st (.line (.decoded m)) s buffered).socketClosed = false) := by
  refine ⟨⟨rfl, rfl⟩, ⟨rfl, rfl⟩, ?_, ?_⟩
  · intro hm; simp [waitForHandshake, hm]
  · intro hm hg; simp [waitForHandshake, hm, hg]

/-- Witness for C4: a wrong-method line and an unknown-uuid proc-id-info line
against the empty manager leave it unchanged. -/
theorem c4_witness :
    ((waitForHandshake st0 (.line (.decoded bogusMsg)) 1 []).st = st0 ∧
      (waitForHandshake st0 (.line (.decoded bogusMsg)) 1 []).socketClosed = true) ∧
    ((waitForHandshake st0 (.line (.decoded procMsgUnknown)) 1 []).st = st0 ∧
      (waitForHandshake st0 (.line (.decoded procMsgUnknown)) 1 []).socketClosed = false) :=
  ⟨(c4_handshake_failures_leave_registry st0 1 [] bogusMsg).2.2.1 (by decide),
   (c4_handshake_failures_leave_registry st0 1 [] procMsgUnknown).2.2.2
     (by decide) (by decide)⟩

/-- Counterexample to C4 as stated: on a handshake timeout, and on a
proc-id-info line with an unknown correlation id, the connection is not
closed, contradicting "the connection is closed" for every failed
handshake. -/
theorem c4_counterexample :
    (waitForHandshake st0 HandshakeInput.timeout 1 []).socketClosed = false ∧
    (waitForHandshake st0 (HandshakeInput.line (.decoded procMsgUnknown))
      1 []).socketClosed = false := by decide

/-- Claim C5, amended: when the spawn raises, the error is reported (to the
console for a redirected launch, to the log otherwise), the just-registered
entry is removed, and the detached-poll timer is not started; but for a
redirected launch the prologue watch entry and the prologue timer were
already registered before the spawn attempt and are left in place (they are
only cleaned up at the next timer tick), so the manager's timer/watch state
is not "as if the launch never happened". -/
theorem c5_spawn_failure_cleanup (st : RunManager) (path u : String)
    (redirected : Bool) (now : Nat) (mode : ReuseMode)
    (consoles : List Console) (msg : String) :
    (runScript st path u redirected now mode consoles (.raises msg)).1.processes
        = st.processes ∧
    (runScript st path u redirected now mode consoles
        (.raises msg)).1.waitTimerActive = st.waitTimerActive ∧
    ((if redirected then MOut.consoleMsg u ("Failed to start: " ++ msg)
        else MOut.loggedError msg) ∈
      (runScript st path u redirected now mode consoles (.raises msg)).2) ∧
    (redirected = false →
      (runScript st path u redirected now mode consoles
          (.raises msg)).1.prologueProcesses = st.prologueProcesses ∧
      (runScript st path u redirected now mode consoles
          (.raises msg)).1.prologueTimerActive = st.prologueTimerActive) := by
  cases redirected <;> simp [runScript, List.dropLast_concat]

/-- Witness for C5: a failed non-redirected spawn against the empty manager
leaves every timer and watch list untouched. -/
theorem c5_witness :
    (runScript st0 "p.py" "u" false 0 .noReuse []
        (.raises "boom")).1.prologueProcesses = st0.prologueProcesses ∧
    (runScript st0 "p.py" "u" false 0 .noReuse []
        (.raises "boom")).1.prologueTimerActive = st0.prologueTimerActive :=
  (c5_spawn_failure_cleanup st0 "p.py" "u" false 0 .noReuse [] "boom").2.2.2
    rfl

/-- Counterexample to C5 as stated: a redirected launch whose spawn fails
leaves the prologue watch entry registered and the prologue timer armed —
the claim's "no timer ... is started for that entry, i.e. ... as if the
launch never happened" is false. -/
theorem c5_counterexample :
    (runScript st0 "p.py" "u" true 0 .noReuse []
        (.raises "boom")).1.prologueProcesses = [("u", 0)] ∧
    (runScript st0 "p.py" "u" true 0 .noReuse []
        (.raises "boom")).1.prologueTimerActive = true ∧
    st0.prologueProcesses = [] ∧ st0.prologueTimerActive = false := by decide

/-- Claim C6: `killAll` stops every redirected tracked entry (each stop's
finished event is handled synchronously and removes the entry), so when its
drain loop starts the count of registered redirected entries is already zero
and `killAll` returns at once; afterwards the registry holds no redirected
entry, a targeted `kill` of any pre-existing redirected uuid is a silent
no-op, its KILLED event is in the produced output, and a stopped wrapper's
socket can deliver no further line or disconnect event. -/
theorem c6_killAll_drains (st : RunManager)
    (hnod : (st.processes.map uuidOf).Nodup) :
    ∃ st' outs, st.killAll = some (st', outs) ∧
      st'.processes = st.processes.filter
        (fun it => !it.procWrapper.redirected) ∧
      getDetachedCount st' = 0 ∧
      (∀ u, u ∈ redirectedUuids st →
        getProcessIndex st'.processes u = none ∧
        RunManager.kill st' u = (st', []) ∧
        MOut.finEvent u KILLED ∈ outs) ∧
      (∀ (w : RemoteProcessWrapper) (ls : List LineResult),
        (wstep (w.stop).1 WOp.disconnectOp).2 = [] ∧
        (wstep (w.stop).1 (WOp.linesOp ls)).2 = []) := by
  have hloop := killAllLoopSpec st.processes st [] (by simp)
    (by simpa using hnod)
  have hkill : st.killAll =
      some ({ st with
        processes :=
          st.processes.filter (fun it => !it.procWrapper.redirected) },
        killAllOuts st.processes) := by
    simp [RunManager.killAll, hloop, getDetachedCount, cdxFilterNotFilter]
  refine ⟨_, _, hkill, rfl, ?_, ?_, fun w ls => stoppedNoEvents w ls⟩
  · simp [getDetachedCount, cdxFilterNotFilter]
  · intro u hu
    have habs : u ∉ (st.processes.filter
        (fun it => !it.procWrapper.redirected)).map uuidOf :=
      cdxNodupFilterNot st.processes u hnod
        (by simpa [redirectedUuids] using hu)
    refine ⟨(gpiNoneIff _ _).mpr habs, ?_, ?_⟩
    · simp [RunManager.kill, (gpiNoneIff _ _).mpr habs]
    · have hu' : ∃ e, (e ∈ st.processes ∧ e.procWrapper.redirected = true) ∧
          uuidOf e = u := by simpa [redirectedUuids] using hu
      obtain ⟨e, ⟨heL, heR⟩, heq⟩ := hu'
      have hmem := stopOutsListMem st.processes.reverse e
        (by simpa using heL) heR
      simpa [killAllOuts, heq] using hmem

/-- Witness for C6: `killAll` on a manager tracking one redirected and one
detached process. -/
theorem c6_witness :
    (stC.processes.map uuidOf).Nodup ∧
    ∃ st' outs, stC.killAll = some (st', outs) ∧
      st'.processes = stC.processes.filter
        (fun it => !it.procWrapper.redirected) ∧
      getDetachedCount st' = 0 ∧
      (∀ u, u ∈ redirectedUuids stC →
        getProcessIndex st'.processes u = none ∧
        RunManager.kill st' u = (st', []) ∧
        MOut.finEvent u KILLED ∈ outs) ∧
      (∀ (w : RemoteProcessWrapper) (ls : List LineResult),
        (wstep (w.stop).1 WOp.disconnectOp).2 = [] ∧
        (wstep (w.stop).1 (WOp.linesOp ls)).2 = []) :=
  ⟨by decide, c6_killAll_drains stC (by decide)⟩

/-- Claim C7: the read-loop handler is supposed to log and ignore any
malformed incoming line without ever raising, but a well-formed message whose
params mapping lacks an expected key — here a `stdout` line with empty params
— raises an uncaught `KeyError` out of `__parseClientLine`, crashing the read
loop: the handler's `except (TypeError, ValueError)` does not cover it. -/
theorem c7_missing_key_crashes_read_loop :
    wAttached.clientSocket.isSome = true ∧
    (parseClientLine wAttached [badLine]).err = some "KeyError: text" := by
  decide

/-- Claim C8: once the prologue timer fires with more than
`HANDSHAKE_TIMEOUT` seconds elapsed for a still-unconnected redirected
launch, the entry is force-stopped: its console receives the message
containing "did not start", `finished(correlationId, KILLED)` fires, and the
entry is removed from the registry. -/
theorem c8_prologue_timeout_kills (st : RunManager) (now t0 : Nat)
    (uuid : String) (item : RemoteProcess)
    (hmem : (uuid, t0) ∈ st.prologueProcesses)
    (hwnod : (st.prologueProcesses.map Prod.fst).Nodup)
    (hnod : (st.processes.map uuidOf).Nodup)
    (hfp : findProcess st.processes uuid = some item)
    (hstate : item.procWrapper.state = some STATE_PROLOGUE)
    (hwidget : item.widget = true)
    (htime : HANDSHAKE_TIMEOUT < now - t0) :
    getProcessIndex (onPrologueTimer st now).1.processes uuid = none ∧
    MOut.consoleMsg uuid timeoutMessage ∈ (onPrologueTimer st now).2 ∧
    MOut.finEvent uuid KILLED ∈ (onPrologueTimer st now).2 ∧
    (∃ a b, timeoutMessage = a ++ "did not start" ++ b) := by
  obtain ⟨wpre, wsuf, hsplit⟩ := List.append_of_mem hmem
  have hWfresh : uuid ∉ wsuf.map Prod.fst := by
    have hmid := cdxNodupMiddle Prod.fst wpre (uuid, t0) wsuf
      (hsplit ▸ hwnod)
    intro hm
    exact hmid.1 (by simp [hm])
  have hfuel : st.prologueProcesses.length =
      wpre.length + 1 + wsuf.length := by
    rw [hsplit]; simp; omega
  have hres := prologueLoopHits now t0 uuid item hstate hwidget htime wsuf
    hWfresh st wpre [] false st.prologueProcesses.length hfuel
    (by rw [hsplit]; simp) hnod hfp
  refine ⟨?_, ?_, ?_,
    ⟨"Timeout: the process ", "; killing the process.", by decide⟩⟩
  · refine (gpiNoneIff _ _).mpr ?_
    simpa [onPrologueTimer] using hres.1
  · simpa [onPrologueTimer] using hres.2.1
  · simpa [onPrologueTimer] using hres.2.2

/-- Witness for C8: the prologue timer fires at 16 s for a launch started at
0 s whose child never connected. -/
theorem c8_witness :
    getProcessIndex (onPrologueTimer stP 16).1.processes "u" = none ∧
    MOut.consoleMsg "u" timeoutMessage ∈ (onPrologueTimer stP 16).2 ∧
    MOut.finEvent "u" KILLED ∈ (onPrologueTimer stP 16).2 ∧
    (∃ a b, timeoutMessage = a ++ "did not start" ++ b) :=
  c8_prologue_timeout_kills stP 16 0 "u" entryP (by decide) (by decide)
    (by decide) (by decide) (by decide) (by decide) (by decide)

/-- Claim C9: the console pick policy — `NoReuse` always creates a fresh
widget; the reuse modes reassign exactly the first existing console of the
requested kind whose owning entry is no longer registered (clearing it only
in `ClearAndReuse` mode) and fall back to a fresh widget when no idle console
of that kind exists; any reused console's owner is absent from the
registry. -/
theorem c9_pickWidget_policy (mode : ReuseMode) (consoles : List Console)
    (processes : List RemoteProcess) (procuuid : String) (kind : Nat) :
    (mode = .noReuse →
      pickWidget mode consoles processes procuuid kind =
        .fresh (newConsole procuuid kind)) ∧
    (mode ≠ .noReuse →
      (firstIdleConsole processes kind consoles = none →
        pickWidget mode consoles processes procuuid kind =
          .fresh (newConsole procuuid kind)) ∧
      (∀ c, firstIdleConsole processes kind consoles = some c →
        pickWidget mode consoles processes procuuid kind =
          .reused (if mode = .clearAndReuse then clearConsole c else c))) ∧
    (∀ c, pickWidget mode consoles processes procuuid kind = .reused c →
      getProcessIndex processes c.procuuid = none ∧ c.kind = kind) := by
  refine ⟨?_, ?_, ?_⟩
  · intro hm; simp [pickWidget, hm]
  · intro hm
    constructor
    · intro hf; simp [pickWidget, hm, scanConsolesSpec, hf]
    · intro c hf; simp [pickWidget, hm, scanConsolesSpec, hf]
  · intro c hres
    by_cases hm : mode = .noReuse
    · simp [pickWidget, hm] at hres
    · cases hf : firstIdleConsole processes kind consoles with
      | none => simp [pickWidget, hm, scanConsolesSpec, hf] at hres
      | some c0 =>
        have hpred : c0.kind = kind ∧
            getProcessIndex processes c0.procuuid = none := by
          have hf' : consoles.find? (fun c => c.kind == kind &&
              (getProcessIndex processes c.procuuid).isNone) = some c0 := hf
          have hp := List.find?_some hf'
          simpa [Option.isNone_iff_eq_none] using hp
        have hc : (if mode = .clearAndReuse then clearConsole c0 else c0)
            = c := by
          simpa [pickWidget, hm, scanConsolesSpec, hf] using hres
        rw [← hc]
        by_cases hcr : mode = .clearAndReuse <;>
          simp [hcr, clearConsole, hpred.1, hpred.2]

/-- Witness for C9: with one idle console of the right kind and an empty
registry, `Reuse` mode picks that console unchanged. -/
theorem c9_witness :
    pickWidget .reuse [{ procuuid := "old", kind := 0 }] [] "new" 0 =
      .reused (if ReuseMode.reuse = ReuseMode.clearAndReuse then
        clearConsole { procuuid := "old", kind := 0 }
      else { procuuid := "old", kind := 0 }) :=
  ((c9_pickWidget_policy .reuse [{ procuuid := "old", kind := 0 }] []
      "new" 0).2.1 (by decide)).2
    { procuuid := "old", kind := 0 } (by decide)

/-- Claim C10: `waitDetached()` returns true exactly when the wrapper holds
no process handle, polling raises, or the child has exited (it itself never
raises — every exception path is converted into `true`); consequently the
detached-poll timer removes every such entry and rearms only while a live
non-redirected entry remains. -/
theorem c10_waitDetached_reaps (st : RunManager) :
    (∀ w : RemoteProcessWrapper, waitDetached w = true ↔
      (w.proc = none ∨ ∃ h, w.proc = some h ∧
        (h.pollResult = .raisesError ∨ ∃ c, h.pollResult = .exitedWith c))) ∧
    (onWaitTimer st).processes = st.processes.filter
      (fun it => it.procWrapper.redirected || !waitDetached it.procWrapper) ∧
    (onWaitTimer st).waitTimerActive = st.processes.any
      (fun it => !it.procWrapper.redirected && !waitDetached it.procWrapper) := by
  have hloop := waitLoopSpec st.processes st [] false (by simp)
  refine ⟨?_, ?_, ?_⟩
  · intro w
    cases hp : w.proc with
    | none => simp [waitDetached, hp]
    | some h =>
      cases hr : h.pollResult <;> simp [waitDetached, hp, hr]
  · simp [onWaitTimer, hloop]
  · simp [onWaitTimer, hloop]

end Codimension
